import Mathlib

/-!
Verification of `bin/import_gram_vaani.py`, the GramVaani corpus importer.

The importer loads a CSV manifest (audio URL, transcript, declared length),
downloads the referenced mp3s, converts them to 16 kHz mono 16-bit wavs,
validates each row, shuffles and splits the valid rows into train/dev/test,
and writes the three partitions as CSV manifests.

External collaborators (the network retriever `urllib.request.urlretrieve`,
the size probe `os.path.getsize`, the frame probe `soxi -s`, the transcript
normalizer `util.text.validate_label`, and the shuffle `DataFrame.sample`)
are taken as function parameters; everything else is translated from the
source.  Python floats appearing in the source arithmetic are modelled as
exact rationals (the source only divides by powers-of-ten constants and the
sample rate, and the claims are settled at small concrete values where the
float and rational results agree).
-/

namespace GramVaani

/-- `MAX_SECS = 10` (source line 23). -/
def MAX_SECS : Nat := 10

/-- `SAMPLE_RATE = 16000` (source line 26). -/
def SAMPLE_RATE : Nat := 16000

/-- Characters of a reversed string up to (and excluding) the first `'/'`:
helper for `basename`. -/
def afterLastSlashRev : List Char → List Char
  | [] => []
  | c :: cs => if c == '/' then [] else c :: afterLastSlashRev cs

/-- `os.path.basename` for POSIX paths and URLs: everything after the last
slash (`s[s.rfind('/')+1:]`); a name with no slash is its own basename and
a trailing slash gives `""`. -/
def basename (s : String) : String :=
  String.mk ((afterLastSlashRev s.data.reverse).reverse)

/-- `os.path.join dir name` for a relative `name` and a `dir` that is
non-empty and has no trailing slash, which is how every join in the source
is invoked. -/
def joinPath (d f : String) : String := d ++ "/" ++ f

/-- The root part of `os.path.splitext`: the extension starts at the last
dot that has at least one non-dot character before it; if there is no such
dot the whole name is the root (so `splitext_root ".bashrc" = ".bashrc"`
and `splitext_root "x.mp3" = "x"`). -/
def splitext_root (s : String) : String :=
  let cs := s.data
  let idxs := (List.range cs.length).filter
    (fun i => cs.getD i ' ' == '.' && (cs.take i).any (fun c => c != '.'))
  match idxs.getLast? with
  | none => s
  | some i => String.mk (cs.take i)

/-- One manifest row: the three columns retained by `GramVaaniCSV._parse_csv`
(source lines 104-113).  `audio_length` is carried verbatim and never
consumed downstream. -/
structure Row where
  audio_url : String
  transcript : String
  audio_length : String
deriving DecidableEq

/-- One row of the `raw` / `valid` / partition frames built by
`GramVaaniDataSets` (columns `wav_filename`, `wav_filesize`, `transcript`,
source line 203). -/
structure RawRow where
  wav_filename : String
  wav_filesize : Nat
  transcript : String
deriving DecidableEq

/-- `_calculate_data_set_sizes` (source lines 243-248):
`dev_size = floor(total * 0.10)`, `train_size = floor(total * 0.80)`,
`test_size = total - (train_size + dev_size)`, returned in the order
`(train_size, dev_size, test_size)`.  The float products are modelled as
exact rationals, so the floors become natural division. -/
def calculate_data_set_sizes (total_size : Nat) : Nat × Nat × Nat :=
  let dev_size := total_size * 10 / 100
  let train_size := total_size * 80 / 100
  let test_size := total_size - (train_size + dev_size)
  (train_size, dev_size, test_size)

/-- pandas label slicing `df.loc[a:b]` over a `RangeIndex` of length `n`
(what `self.valid` has after `reset_index(drop=True)`, source line 212):
it selects the labels `i` with `a ≤ i ≤ b` — INCLUSIVE at both endpoints,
unlike Python positional slicing. -/
def locSlice (n a b : Nat) : List Nat :=
  (List.range n).filter (fun i => a ≤ i && i ≤ b)

/-- The three slices taken by `create` (source lines 214-216), as index sets
over the shuffled valid rows `0..n-1`:
`train = valid.loc[0:train_size]`,
`dev = valid.loc[train_size:train_size+dev_size]`,
`test = valid.loc[train_size+dev_size:train_size+dev_size+test_size]`. -/
def create_slice_indices (n : Nat) : List Nat × List Nat × List Nat :=
  let sizes := calculate_data_set_sizes n
  let train_size := sizes.1
  let dev_size := sizes.2.1
  let test_size := sizes.2.2
  (locSlice n 0 train_size,
   locSlice n train_size (train_size + dev_size),
   locSlice n (train_size + dev_size) (train_size + dev_size + test_size))

/-- `_is_row_invalid` (source lines 232-241).  `probe_frames` stands for
`int(subprocess.check_output(['soxi', '-s', wav_filename]))`, the frame
count of the wav file on disk.  The float expression
`int(frames/SAMPLE_RATE*1000/10/2)` equals `frames / 320` exactly, and
`frames/SAMPLE_RATE > MAX_SECS` iff `frames > MAX_SECS * SAMPLE_RATE`; both
are modelled exactly.  The declared manifest duration is not a parameter of
the source function and duration enters only through the probe.
`wav_filesize` is accepted and ignored, as in the source. -/
def is_row_invalid (probe_frames : String → Nat) (directory wav_filename : String)
    (wav_filesize : Nat) (transcript : String) : Bool :=
  if transcript.trim = "" then true
  else
    let frames := probe_frames (joinPath directory wav_filename)
    if frames * 1000 / (SAMPLE_RATE * 10 * 2) < transcript.length then true
    else if frames > MAX_SECS * SAMPLE_RATE then true
    else false

/-- The filesystem under the target directory, as the set (list) of paths
that currently exist. -/
abbrev FS := List String

/-- `os.path.exists`. -/
def pathExists (fs : FS) (p : String) : Bool := fs.contains p

/-- The local mp3 filename derived for a row by `_download` (source line
150): `path.join(mp3_directory, os.path.basename(audio_url))`. -/
def mp3_filename (mp3_directory audio_url : String) : String :=
  joinPath mp3_directory (basename audio_url)

/-- `_download` (source lines 149-155) for one row.  `fetch` stands for the
collaborator `urllib.request.urlretrieve`, which on success creates the
destination file; there is no `try/except` around it in the source, so a
retrieval error propagates.  The returned `Bool` records whether a network
retrieval was performed. -/
def download_row (fetch : String → Except String Unit) (mp3_directory : String)
    (fs : FS) (r : Row) : Except String (FS × Bool) :=
  let dest := mp3_filename mp3_directory r.audio_url
  if pathExists fs dest then Except.ok (fs, false)
  else
    match fetch r.audio_url with
    | Except.ok _ => Except.ok (dest :: fs, true)
    | Except.error e => Except.error e

/-- `download` (source lines 130-137): `_download` applied across the
manifest rows.  The `swifter.apply` call propagates the first uncaught
exception of any row to the caller, aborting the whole stage; the `Nat`
counts the network retrievals performed. -/
def download_rows (fetch : String → Except String Unit) (mp3_directory : String) :
    FS → List Row → Except String (FS × Nat)
  | fs, [] => Except.ok (fs, 0)
  | fs, r :: rs =>
    match download_row fetch mp3_directory fs r with
    | Except.error e => Except.error e
    | Except.ok (fs1, did) =>
      match download_rows fetch mp3_directory fs1 rs with
      | Except.error e => Except.error e
      | Except.ok (fs2, n) => Except.ok (fs2, (if did then 1 else 0) + n)

/-- An always-successful retrieval collaborator: the setting of the
idempotence claim, whose second run follows a fully successful first run. -/
def fetch_ok : String → Except String Unit := fun _ => Except.ok ()

/-- The wav filename derived by `convert` for one fetched mp3 (source line
178): `path.join(wav_directory, splitext(basename(mp3_filename))[0] + ".wav")`. -/
def convert_wav_filename (wav_directory mp3_filename : String) : String :=
  joinPath wav_directory (splitext_root (basename mp3_filename) ++ ".wav")

/-- One iteration of the `convert` loop (source lines 177-185): transcode
unless the wav already exists.  The sox transcode collaborator is taken as
always succeeding (the claim concerns re-runs after a successful run); the
`Bool` records whether a transcode was performed. -/
def convert_file (wav_directory : String) (fs : FS) (mp3 : String) : FS × Bool :=
  let wav := convert_wav_filename wav_directory mp3
  if pathExists fs wav then (fs, false) else (wav :: fs, true)

/-- `convert` (source lines 171-186) over the list of mp3 paths found by
`self.mp3_directory.glob('**/*.mp3')`; the `Nat` counts transcodes
performed. -/
def convert : (wav_directory : String) → FS → List String → FS × Nat
  | _, fs, [] => (fs, 0)
  | wd, fs, m :: ms =>
    let p := convert_file wd fs m
    let q := convert wd p.1 ms
    (q.1, (if p.2 then 1 else 0) + q.2)

/-- The canonical-relative wav path derived by
`_convert_csv_data_to_raw_data_impl` (source lines 224-225). -/
def wav_relative_filename (audio_url : String) : String :=
  let mp3_name := basename audio_url
  joinPath "wav" (splitext_root (basename mp3_name) ++ ".wav")

/-- `_convert_csv_data_to_raw_data_impl` (source lines 223-230).  `getsize`
stands for `os.path.getsize`, which raises (`Except.error`) when the file
is absent — the source has no handler around it.  `validate` stands for the
external normalizer `util.text.validate_label`; its `None` result becomes
`""` (source lines 228-229).  Note the size is probed before the
transcript is normalized, as in the source. -/
def convert_csv_data_to_raw_data_impl (getsize : String → Except String Nat)
    (validate : String → Option String) (directory : String) (r : Row) :
    Except String RawRow :=
  let wav_rel := wav_relative_filename r.audio_url
  match getsize (joinPath directory wav_rel) with
  | Except.error e => Except.error e
  | Except.ok wav_filesize =>
    let transcript :=
      match validate r.transcript with
      | none => ""
      | some t => t
    Except.ok (RawRow.mk wav_rel wav_filesize transcript)

/-- `_convert_csv_data_to_raw_data` (source lines 218-221): the impl applied
across all manifest rows; `swifter.apply` propagates the first uncaught
exception, aborting the stage. -/
def convert_csv_data_to_raw_data (getsize : String → Except String Nat)
    (validate : String → Option String) (directory : String) :
    List Row → Except String (List RawRow)
  | [] => Except.ok []
  | r :: rs =>
    match convert_csv_data_to_raw_data_impl getsize validate directory r with
    | Except.error e => Except.error e
    | Except.ok row =>
      match convert_csv_data_to_raw_data getsize validate directory rs with
      | Except.error e => Except.error e
      | Except.ok rest => Except.ok (row :: rest)

/-- The attributes of a `GramVaaniDataSets` object (source lines 199-207). -/
structure DataSets where
  directory : String
  wav_directory : String
  csv_data : List Row
  raw : List RawRow
  valid : List RawRow
  train : List RawRow
  dev : List RawRow
  test : List RawRow
deriving DecidableEq

/-- `GramVaaniDataSets.__init__` (source lines 199-207): the five frames
start out empty. -/
def dataSetsInit (directory wav_directory : String) (csv_data : List Row) : DataSets :=
  DataSets.mk directory wav_directory csv_data [] [] [] [] []

/-- `GramVaaniDataSets.create` (source lines 209-216).  `probe_frames` is
the `soxi -s` collaborator and `shuffle` is `DataFrame.sample(frac=1)`
(an arbitrary permutation).  Lines 214-216 bind the three `.loc` slices to
the LOCAL names `train`, `dev`, `test` — mirrored by the discarded
`_slices` binding — and never assign `self.train`, `self.dev` or
`self.test`, so those attributes are returned unchanged. -/
def create (getsize : String → Except String Nat) (validate : String → Option String)
    (probe_frames : String → Nat) (shuffle : List RawRow → List RawRow)
    (s : DataSets) : Except String DataSets :=
  match convert_csv_data_to_raw_data getsize validate s.directory s.csv_data with
  | Except.error e => Except.error e
  | Except.ok raw =>
    let valid := shuffle (raw.filter (fun r =>
      !(is_row_invalid probe_frames s.directory r.wav_filename r.wav_filesize r.transcript)))
    let _slices := create_slice_indices valid.length
    Except.ok (DataSets.mk s.directory s.wav_directory s.csv_data raw valid
      s.train s.dev s.test)

/-- A Python value that can be handed to `DataFrame.to_csv` as its first
argument: either a path string or — what line 258 actually passes — the
module `os.path`, bound to the bare name `path` by `from os import path`
(source line 9). -/
inductive PyValue where
  | str : String → PyValue
  | os_path_module : PyValue
deriving DecidableEq

/-- What `_save` (source lines 255-258) computes and does: `dataset_path`
is built with `os.path.join(self.directory, dataset + ".csv")` and then
never used; the first argument passed to `dataframe.to_csv` is the name
`path`, i.e. the module `os.path`, not a filename. -/
structure SaveEffect where
  dataset_path : String
  to_csv_target : PyValue
deriving DecidableEq

/-- The effect of `_save` for one partition name. -/
def save_effect (directory dataset : String) : SaveEffect :=
  SaveEffect.mk (joinPath directory (dataset ++ ".csv")) PyValue.os_path_module

/-- Concrete manifest rows used by several concrete evaluations below. -/
def row_a : Row := Row.mk "http://host/a.mp3" "hello there" "2000"

/-- A second concrete row. -/
def row_b : Row := Row.mk "http://host/b.mp3" "general kenobi" "1500"

/-- A retrieval collaborator that fails (HTTP 404) exactly on `row_a`'s
URL. -/
def fetch_fails_a : String → Except String Unit := fun u =>
  if u == "http://host/a.mp3" then Except.error "HTTP 404" else Except.ok ()

/-- A size probe for a filesystem on which no wav file exists:
`os.path.getsize` raises `FileNotFoundError` for every path. -/
def getsize_absent : String → Except String Nat := fun _ =>
  Except.error "FileNotFoundError"

/-- The characters the csv writer invoked by `_save` treats as special,
under its arguments `quoting=csv.QUOTE_MINIMAL`, `escapechar='\\'` and the
dialect defaults delimiter `','`, quotechar `'"'`, `doublequote=True`,
with line terminator `"\n"`: a field containing any of them is written
quoted (Python's csv writer also quotes a field containing the escape
character when `doublequote` is on).  A bare `'\r'` is NOT special here
(it is not in the `"\n"` line terminator); its round trip depends on
platform newline translation outside this model, so the round-trip
statement below excludes it, as well as the escape character itself,
whose treatment changed across Python versions. -/
def to_csv_special (c : Char) : Bool :=
  c == ',' || c == '"' || c == '\n' || c == '\\'

/-- `QUOTE_MINIMAL`: quote exactly the fields containing a special
character. -/
def to_csv_needs_quoting (f : List Char) : Bool := f.any to_csv_special

/-- Inside a quoted field, `doublequote=True` doubles each quote
character. -/
def to_csv_escape : List Char → List Char
  | [] => []
  | c :: cs => if c == '"' then '"' :: '"' :: to_csv_escape cs else c :: to_csv_escape cs

/-- One field as serialized by `to_csv`. -/
def to_csv_field (f : List Char) : List Char :=
  if to_csv_needs_quoting f then '"' :: (to_csv_escape f ++ ['"']) else f

/-- One record as serialized by `to_csv`: fields joined by the delimiter. -/
def to_csv_record : List (List Char) → List Char
  | [] => []
  | [f] => to_csv_field f
  | f :: fs => to_csv_field f ++ ',' :: to_csv_record fs

/-- A whole file as serialized by `to_csv` with `index=False`: one line per
record (the header being the first record), each terminated by the line
terminator. -/
def to_csv_file (rows : List (List (List Char))) : List Char :=
  (rows.map (fun r => to_csv_record r ++ ['\n'])).flatten

/-- Reading a quoted field body (after the opening quote): a doubled quote
is a literal quote, a single quote closes the field; `none` on an
unterminated quote. -/
def read_quoted : List Char → Option (List Char × List Char)
  | [] => none
  | c :: cs =>
    if c == '"' then
      match cs with
      | [] => some ([], [])
      | c2 :: cs2 =>
        if c2 == '"' then
          match read_quoted cs2 with
          | some (f, r) => some ('"' :: f, r)
          | none => none
        else some ([], c2 :: cs2)
    else
      match read_quoted cs with
      | some (f, r) => some (c :: f, r)
      | none => none

/-- Reading an unquoted field: everything up to the next delimiter or
record terminator. -/
def read_unquoted : List Char → List Char × List Char
  | [] => ([], [])
  | c :: cs =>
    if c == ',' || c == '\n' then ([], c :: cs)
    else
      let p := read_unquoted cs
      (c :: p.1, p.2)

/-- Reading one field: quoted if it starts with the quote character. -/
def read_field : List Char → Option (List Char × List Char)
  | [] => some ([], [])
  | c :: cs => if c == '"' then read_quoted cs else some (read_unquoted (c :: cs))

/-- Reading one record: fields separated by the delimiter, ended by the
record terminator or the end of input.  `fuel` bounds the number of fields
(the parser consumes one delimiter per recursive step). -/
def read_record : Nat → List Char → Option (List (List Char) × List Char)
  | 0, _ => none
  | fuel + 1, cs =>
    match read_field cs with
    | none => none
    | some (f, r) =>
      match r with
      | [] => some ([f], [])
      | c :: r2 =>
        if c == ',' then
          match read_record fuel r2 with
          | some (fs, rest) => some (f :: fs, rest)
          | none => none
        else if c == '\n' then some ([f], r2)
        else none

/-- Reading a sequence of records until the end of input; `fuel` bounds the
number of records. -/
def read_rows : Nat → List Char → Option (List (List (List Char)))
  | _, [] => some []
  | 0, _ :: _ => none
  | fuel + 1, c :: cs =>
    match read_record ((c :: cs).length + 1) (c :: cs) with
    | none => none
    | some (fs, rest) =>
      match read_rows fuel rest with
      | some rows => some (fs :: rows)
      | none => none

/-- Reading back a whole csv file (one record per data row plus the header
record, as `read_csv` consumes the output of `_save`'s `to_csv` call). -/
def read_csv_file (cs : List Char) : Option (List (List (List Char))) :=
  read_rows (cs.length + 1) cs

/-- The header written by `_save`: the three column names of the partition
frames (source line 203). -/
def header_fields : List (List Char) :=
  [String.data "wav_filename", String.data "wav_filesize", String.data "transcript"]

/-- The three fields `to_csv` writes for one partition row: the filename,
the decimal file size, and the transcript. -/
def raw_row_fields (r : RawRow) : List (List Char) :=
  [r.wav_filename.data, (Nat.repr r.wav_filesize).data, r.transcript.data]

/-- The text `_save` would serialize for a partition holding `rows`
(header first, then one line per row). -/
def save_file_contents (rows : List RawRow) : List Char :=
  to_csv_file (header_fields :: rows.map raw_row_fields)

/-- Two concrete partition rows whose transcripts exercise the quoting:
an embedded delimiter, embedded double quotes, an embedded newline, and an
empty transcript. -/
def tricky_rows : List RawRow :=
  [RawRow.mk "wav/a.wav" 123 "he said, \"hi\"\nsecond line",
   RawRow.mk "wav/b.wav" 0 ""]

/-- A row hosted on server `hosta` whose URL basename is `clip.mp3`. -/
def row_x1 : Row := Row.mk "http://hosta/clip.mp3" "first take" "900"

/-- A different row, on server `hostb`, whose URL basename is also
`clip.mp3`. -/
def row_x2 : Row := Row.mk "http://hostb/clip.mp3" "second take" "800"

/-- Claim C1: the claim states that `create` partitions the `n` valid rows
into train/dev/test with `|train|+|dev|+|test| = n` and pairwise disjoint
index ranges covering `[0,n)`.  The code violates this: pandas `.loc`
slicing is inclusive at both endpoints, so for `n = 10`
(`train_size = 8`, `dev_size = 1`, `test_size = 1`) the slices have sizes
9, 2 and 1 — summing to 12, not 10 — and index 8 lies in both train and
dev while index 9 lies in both dev and test. -/
theorem create_slices_overlap_and_oversize :
    ((create_slice_indices 10).1.length
      + (create_slice_indices 10).2.1.length
      + (create_slice_indices 10).2.2.length = 12)
    ∧ (8 ∈ (create_slice_indices 10).1 ∧ 8 ∈ (create_slice_indices 10).2.1)
    ∧ (9 ∈ (create_slice_indices 10).2.1 ∧ 9 ∈ (create_slice_indices 10).2.2) := by
  decide

set_option maxRecDepth 100000 in
/-- Claim C6: the claim states that for `n = 1000` valid rows the split
produces exactly 800/100/100.  The computed sizes are indeed
`(800, 100, 100)`, but the `.loc` slices actually produced by `create`
have 801, 101 and 100 rows because `.loc` includes both endpoints. -/
theorem split_sizes_at_1000 :
    calculate_data_set_sizes 1000 = (800, 100, 100)
    ∧ (create_slice_indices 1000).1.length = 801
    ∧ (create_slice_indices 1000).2.1.length = 101
    ∧ (create_slice_indices 1000).2.2.length = 100 := by
  decide

/-- Claim C2: `_is_row_invalid` rejects exactly the rows that (1) have an
empty transcript after trimming, or (2) have floor(duration_ms/20) (with
`duration_ms` probed from the wav file as `frames/SAMPLE_RATE*1000`, never
the declared manifest duration, which the function does not even receive)
below the transcript character count, or (3) have probed duration above
`MAX_SECS` seconds.  In particular an empty transcript is rejected
regardless of duration, and a duration above 10 s is rejected regardless
of the other fields. -/
theorem is_row_invalid_characterization (probe_frames : String → Nat)
    (directory wav_filename : String) (wav_filesize : Nat) (transcript : String) :
    is_row_invalid probe_frames directory wav_filename wav_filesize transcript = true ↔
      (transcript.trim = ""
       ∨ probe_frames (joinPath directory wav_filename) * 1000 / (SAMPLE_RATE * 10 * 2)
           < transcript.length
       ∨ probe_frames (joinPath directory wav_filename) > MAX_SECS * SAMPLE_RATE) := by
  by_cases h1 : transcript.trim = "" <;>
    by_cases h2 : probe_frames (joinPath directory wav_filename) * 1000
        / (SAMPLE_RATE * 10 * 2) < transcript.length <;>
      by_cases h3 : probe_frames (joinPath directory wav_filename)
          > MAX_SECS * SAMPLE_RATE <;>
        simp [is_row_invalid, h1, h2, h3]

/-- Unfolding lemma: membership in the path list after a cons. -/
theorem pathExists_cons (fs : FS) (p q : String) :
    pathExists (q :: fs) p = (p == q || pathExists fs p) := by
  simp only [pathExists, List.contains_cons]

/-- A freshly created path exists. -/
theorem pathExists_self (fs : FS) (p : String) : pathExists (p :: fs) p = true := by
  simp [pathExists_cons]

/-- With an always-successful retrieval, `_download` either skips or
creates the destination file. -/
theorem download_row_fetch_ok (d : String) (fs : FS) (r : Row) :
    download_row fetch_ok d fs r =
      if pathExists fs (mp3_filename d r.audio_url) then Except.ok (fs, false)
      else Except.ok (mp3_filename d r.audio_url :: fs, true) := by
  by_cases h : pathExists fs (mp3_filename d r.audio_url) = true <;>
    simp [download_row, fetch_ok, h]

/-- Step lemma: a row whose file exists is skipped by the download pass. -/
theorem download_rows_cons_skip (d : String) (fs : FS) (r : Row) (rs : List Row)
    (h0 : pathExists fs (mp3_filename d r.audio_url) = true) :
    download_rows fetch_ok d fs (r :: rs) = download_rows fetch_ok d fs rs := by
  cases heq : download_rows fetch_ok d fs rs with
  | error e => simp [download_rows, download_row_fetch_ok, h0, heq]
  | ok q =>
    obtain ⟨fs2, n2⟩ := q
    simp [download_rows, download_row_fetch_ok, h0, heq]

/-- Step lemma: a row whose file is absent is retrieved by the download
pass (one retrieval, file created), and the pass continues on the enlarged
filesystem. -/
theorem download_rows_cons_fetch (d : String) (fs : FS) (r : Row) (rs : List Row)
    (h0 : pathExists fs (mp3_filename d r.audio_url) = false) :
    download_rows fetch_ok d fs (r :: rs)
      = Except.map (fun q => (q.1, 1 + q.2))
          (download_rows fetch_ok d (mp3_filename d r.audio_url :: fs) rs) := by
  cases heq : download_rows fetch_ok d (mp3_filename d r.audio_url :: fs) rs with
  | error e => simp [download_rows, download_row_fetch_ok, h0, heq, Except.map]
  | ok q =>
    obtain ⟨fs2, n2⟩ := q
    simp [download_rows, download_row_fetch_ok, h0, heq, Except.map]

/-- A successful download pass never removes an existing file. -/
theorem download_rows_mono (d : String) (rows : List Row) :
    ∀ (fs fs' : FS) (n : Nat) (p : String),
      download_rows fetch_ok d fs rows = Except.ok (fs', n) →
      pathExists fs p = true → pathExists fs' p = true := by
  induction rows with
  | nil =>
    intro fs fs' n p h hp
    simp [download_rows] at h
    exact h.1 ▸ hp
  | cons r rs ih =>
    intro fs fs' n p h hp
    by_cases h0 : pathExists fs (mp3_filename d r.audio_url) = true
    · rw [download_rows_cons_skip d fs r rs h0] at h
      exact ih fs fs' n p h hp
    · rw [download_rows_cons_fetch d fs r rs (by simpa using h0)] at h
      cases heq : download_rows fetch_ok d (mp3_filename d r.audio_url :: fs) rs with
      | error e => rw [heq] at h; exact absurd h (by simp [Except.map])
      | ok q =>
        rw [heq] at h
        simp [Except.map] at h
        refine h.1 ▸ ih _ q.1 q.2 p heq ?_
        rw [pathExists_cons, hp]
        simp

/-- After a successful download pass, every row's derived mp3 file exists. -/
theorem download_rows_materializes (d : String) (rows : List Row) :
    ∀ (fs fs' : FS) (n : Nat),
      download_rows fetch_ok d fs rows = Except.ok (fs', n) →
      ∀ r ∈ rows, pathExists fs' (mp3_filename d r.audio_url) = true := by
  induction rows with
  | nil => intro fs fs' n _ r hr; exact absurd hr (by simp)
  | cons r0 rs ih =>
    intro fs fs' n h r hr
    by_cases h0 : pathExists fs (mp3_filename d r0.audio_url) = true
    · rw [download_rows_cons_skip d fs r0 rs h0] at h
      rcases List.mem_cons.mp hr with hr0 | hrs
      · exact hr0 ▸ download_rows_mono d rs fs fs' n _ h h0
      · exact ih fs fs' n h r hrs
    · rw [download_rows_cons_fetch d fs r0 rs (by simpa using h0)] at h
      cases heq : download_rows fetch_ok d (mp3_filename d r0.audio_url :: fs) rs with
      | error e => rw [heq] at h; exact absurd h (by simp [Except.map])
      | ok q =>
        rw [heq] at h
        simp [Except.map] at h
        rcases List.mem_cons.mp hr with hr0 | hrs
        · exact h.1 ▸ hr0 ▸
            download_rows_mono d rs _ q.1 q.2 _ heq (pathExists_self fs _)
        · exact h.1 ▸ ih _ q.1 q.2 heq r hrs

/-- When every row's mp3 file already exists, the download pass retrieves
nothing and leaves the filesystem unchanged. -/
theorem download_rows_all_present (d : String) (rows : List Row) :
    ∀ fs : FS, (∀ r ∈ rows, pathExists fs (mp3_filename d r.audio_url) = true) →
      download_rows fetch_ok d fs rows = Except.ok (fs, 0) := by
  induction rows with
  | nil => intro fs _; rfl
  | cons r rs ih =>
    intro fs hall
    rw [download_rows_cons_skip d fs r rs (hall r (by simp))]
    exact ih fs (fun r' hr' => hall r' (by simp [hr']))

/-- Step lemma: an mp3 whose wav exists is skipped by the convert pass. -/
theorem convert_cons_skip (wd : String) (fs : FS) (m : String) (ms : List String)
    (h0 : pathExists fs (convert_wav_filename wd m) = true) :
    convert wd fs (m :: ms) = convert wd fs ms := by
  rw [convert]
  simp [convert_file, h0]

/-- Step lemma: an mp3 whose wav is absent is transcoded by the convert
pass (one transcode, wav created). -/
theorem convert_cons_new (wd : String) (fs : FS) (m : String) (ms : List String)
    (h0 : pathExists fs (convert_wav_filename wd m) = false) :
    convert wd fs (m :: ms)
      = ((convert wd (convert_wav_filename wd m :: fs) ms).1,
         1 + (convert wd (convert_wav_filename wd m :: fs) ms).2) := by
  rw [convert]
  simp [convert_file, h0]

/-- A convert pass never removes an existing file. -/
theorem convert_mono (wd : String) (ms : List String) :
    ∀ (fs : FS) (p : String), pathExists fs p = true →
      pathExists (convert wd fs ms).1 p = true := by
  induction ms with
  | nil => intro fs p hp; exact hp
  | cons m ms ih =>
    intro fs p hp
    by_cases h0 : pathExists fs (convert_wav_filename wd m) = true
    · rw [convert_cons_skip wd fs m ms h0]
      exact ih fs p hp
    · rw [convert_cons_new wd fs m ms (by simpa using h0)]
      refine ih _ p ?_
      rw [pathExists_cons, hp]
      simp

/-- After a convert pass, every listed mp3's wav file exists. -/
theorem convert_materializes (wd : String) (ms : List String) :
    ∀ fs : FS, ∀ m ∈ ms,
      pathExists (convert wd fs ms).1 (convert_wav_filename wd m) = true := by
  induction ms with
  | nil => intro fs m hm; exact absurd hm (by simp)
  | cons m0 ms ih =>
    intro fs m hm
    rcases List.mem_cons.mp hm with hm0 | hms
    · subst hm0
      by_cases h0 : pathExists fs (convert_wav_filename wd m) = true
      · rw [convert_cons_skip wd fs m ms h0]
        exact convert_mono wd ms fs _ h0
      · rw [convert_cons_new wd fs m ms (by simpa using h0)]
        exact convert_mono wd ms _ _ (pathExists_self fs _)
    · by_cases h0 : pathExists fs (convert_wav_filename wd m0) = true
      · rw [convert_cons_skip wd fs m0 ms h0]
        exact ih fs m hms
      · rw [convert_cons_new wd fs m0 ms (by simpa using h0)]
        exact ih _ m hms

/-- When every wav file already exists, the convert pass transcodes nothing
and leaves the filesystem unchanged. -/
theorem convert_all_present (wd : String) (ms : List String) :
    ∀ fs : FS, (∀ m ∈ ms, pathExists fs (convert_wav_filename wd m) = true) →
      convert wd fs ms = (fs, 0) := by
  induction ms with
  | nil => intro fs _; rfl
  | cons m ms ih =>
    intro fs hall
    rw [convert_cons_skip wd fs m ms (hall m (by simp))]
    exact ih fs (fun m' hm' => hall m' (by simp [hm']))

/-- Claim C3: re-running Fetch against a target directory produced by a
successful Fetch pass performs zero retrievals (and leaves the filesystem
unchanged), and re-running the Transcode loop over the same mp3 listing
performs zero transcodes: both stages skip every file that already
exists. -/
theorem fetch_and_transcode_idempotent :
    (∀ (d : String) (fs fs' : FS) (rows : List Row) (n : Nat),
        download_rows fetch_ok d fs rows = Except.ok (fs', n) →
        download_rows fetch_ok d fs' rows = Except.ok (fs', 0))
    ∧ ∀ (wd : String) (fs : FS) (mp3s : List String),
        convert wd (convert wd fs mp3s).1 mp3s = ((convert wd fs mp3s).1, 0) := by
  constructor
  · intro d fs fs' rows n h
    exact download_rows_all_present d rows fs' (download_rows_materializes d rows fs fs' n h)
  · intro wd fs mp3s
    exact convert_all_present wd mp3s _ (fun m hm => convert_materializes wd mp3s fs m hm)

/-- Concrete run of the idempotence theorem: after fetching `row_a` into an
empty target (one retrieval, creating `t/mp3/a.mp3`), the second pass
performs zero retrievals; likewise the second convert pass performs zero
transcodes. -/
theorem fetch_and_transcode_idempotent_witness :
    download_rows fetch_ok "t/mp3" ["t/mp3/a.mp3"] [row_a] = Except.ok (["t/mp3/a.mp3"], 0)
    ∧ convert "t/wav" (convert "t/wav" [] ["t/mp3/a.mp3"]).1 ["t/mp3/a.mp3"]
        = ((convert "t/wav" [] ["t/mp3/a.mp3"]).1, 0) :=
  ⟨fetch_and_transcode_idempotent.1 "t/mp3" [] ["t/mp3/a.mp3"] [row_a] 1 (by rfl),
   fetch_and_transcode_idempotent.2 "t/wav" [] ["t/mp3/a.mp3"]⟩

/-- Claim C4, counterexample: `_download` has no `try/except`, so a 404 on
`row_a` aborts the whole batch — the download stage returns the exception
instead of fetching the remaining `row_b` and excluding only the failing
row. -/
theorem download_failure_aborts_batch :
    download_rows fetch_fails_a "t/mp3" [] [row_a, row_b] = Except.error "HTTP 404" := rfl

/-- Claim C4, amended: a row's fetch failure is NOT caught at the row
boundary; when the downloader reaches a row whose file is absent and whose
retrieval fails, the error propagates out of the stage and the remaining
rows are not processed. -/
theorem download_row_failure_propagates (fetch : String → Except String Unit)
    (d : String) (fs : FS) (r : Row) (rs : List Row) (e : String)
    (habsent : pathExists fs (mp3_filename d r.audio_url) = false)
    (hfail : fetch r.audio_url = Except.error e) :
    download_rows fetch d fs (r :: rs) = Except.error e := by
  simp [download_rows, download_row, habsent, hfail]

/-- Concrete run of the propagation theorem at `row_a` on an empty target. -/
theorem download_row_failure_propagates_witness :
    download_rows fetch_fails_a "t/mp3" [] [row_a] = Except.error "HTTP 404" :=
  download_row_failure_propagates fetch_fails_a "t/mp3" [] row_a [] "HTTP 404"
    (by rfl) (by rfl)

/-- Claim C5, counterexample: when a row's canonical wav file is absent,
`os.path.getsize` raises and `_convert_csv_data_to_raw_data` propagates the
exception — the validation stage crashes instead of excluding the row. -/
theorem absent_wav_crashes_validation :
    convert_csv_data_to_raw_data getsize_absent some "target" [row_a]
      = Except.error "FileNotFoundError" := rfl

/-- Claim C5, amended: a manifest row whose canonical audio asset is absent
at validation time makes the size probe fail, and the error propagates out
of the stage (no row is excluded; the stage aborts). -/
theorem getsize_error_propagates (getsize : String → Except String Nat)
    (validate : String → Option String) (directory : String)
    (r : Row) (rs : List Row) (e : String)
    (h : getsize (joinPath directory (wav_relative_filename r.audio_url))
          = Except.error e) :
    convert_csv_data_to_raw_data getsize validate directory (r :: rs) = Except.error e := by
  simp [convert_csv_data_to_raw_data, convert_csv_data_to_raw_data_impl, h]

/-- Concrete run of the propagation theorem at `row_b`. -/
theorem getsize_error_propagates_witness :
    convert_csv_data_to_raw_data getsize_absent some "target" [row_b]
      = Except.error "FileNotFoundError" :=
  getsize_error_propagates getsize_absent some "target" row_b [] "FileNotFoundError"
    (by rfl)

/-- Claim C7: `_save` computes `dataset_path = target_dir/<name>.csv` but
then passes the bare name `path` — the module `os.path` — as the first
argument of `to_csv`, so the serialized rows are never written to the
computed path (for any partition name: the argument is not a path string
at all). -/
theorem save_passes_os_path_module :
    (save_effect "target" "train").dataset_path = "target/train.csv"
    ∧ (save_effect "target" "train").to_csv_target
        ≠ PyValue.str ((save_effect "target" "train").dataset_path)
    ∧ ∀ p : String, (save_effect "target" "train").to_csv_target ≠ PyValue.str p := by
  refine ⟨rfl, by simp [save_effect], fun p => by simp [save_effect]⟩

/-- Claim C9, counterexample: two distinct manifest rows hosted on different
servers share the URL basename `clip.mp3`, so `_download` derives the SAME
local filename for both — concurrent fetch workers for these rows write to
one file. -/
theorem mp3_filenames_collide :
    row_x1 ≠ row_x2
    ∧ row_x1.audio_url ≠ row_x2.audio_url
    ∧ mp3_filename "t/mp3" row_x1.audio_url = mp3_filename "t/mp3" row_x2.audio_url := by
  refine ⟨by decide, by decide, rfl⟩

/-- Claim C9, amended: the derived filenames are deterministic in the URL
basename and distinct whenever the two rows' URL basenames are distinct;
they collide exactly on equal basenames. -/
theorem mp3_filename_injective_on_basenames (d u1 u2 : String)
    (h : basename u1 ≠ basename u2) :
    mp3_filename d u1 ≠ mp3_filename d u2 := by
  intro heq
  apply h
  have h2 := congrArg String.data heq
  simp only [mp3_filename, joinPath, String.data_append, List.append_assoc,
    List.append_cancel_left_eq] at h2
  exact String.ext h2

/-- Concrete run of the injectivity theorem on two URLs with distinct
basenames. -/
theorem mp3_filename_injective_on_basenames_witness :
    basename "http://host/a.mp3" ≠ basename "http://host/b.mp3"
    ∧ mp3_filename "t/mp3" "http://host/a.mp3" ≠ mp3_filename "t/mp3" "http://host/b.mp3" :=
  ⟨by decide, mp3_filename_injective_on_basenames "t/mp3" _ _ (by decide)⟩

/-- Claim C10: `create` binds the three computed slices only to local
variables and never assigns the `train`, `dev` and `test` attributes, so
whenever it returns normally on a freshly constructed object the three
partition attributes that `save` would serialize are still the empty
collections installed by `__init__`. -/
theorem create_leaves_partitions_empty (getsize : String → Except String Nat)
    (validate : String → Option String) (probe_frames : String → Nat)
    (shuffle : List RawRow → List RawRow) (directory wav_directory : String)
    (csv_data : List Row) (s' : DataSets)
    (h : create getsize validate probe_frames shuffle
          (dataSetsInit directory wav_directory csv_data) = Except.ok s') :
    s'.train = [] ∧ s'.dev = [] ∧ s'.test = [] := by
  simp only [create, dataSetsInit] at h
  cases hcv : convert_csv_data_to_raw_data getsize validate directory csv_data with
  | error e => rw [hcv] at h; exact absurd h (by simp)
  | ok raw =>
    rw [hcv] at h
    simp only [] at h
    injection h with h'
    subst h'
    exact ⟨rfl, rfl, rfl⟩

/-- Concrete run of the frame theorem: `create` on an empty manifest
succeeds and the resulting object's partitions are empty. -/
theorem create_leaves_partitions_empty_witness :
    (DataSets.mk "t" "t/wav" [] [] [] [] [] []).train = []
    ∧ (DataSets.mk "t" "t/wav" [] [] [] [] [] []).dev = []
    ∧ (DataSets.mk "t" "t/wav" [] [] [] [] [] []).test = [] :=
  create_leaves_partitions_empty getsize_absent some (fun _ => 0) id "t" "t/wav" []
    (DataSets.mk "t" "t/wav" [] [] [] [] [] []) (by rfl)

/-- A field that needs no quoting contains no special character. -/
theorem not_special_of_no_quoting {f : List Char}
    (h : to_csv_needs_quoting f = false) :
    ∀ c ∈ f, c ≠ ',' ∧ c ≠ '"' ∧ c ≠ '\n' ∧ c ≠ '\\' := by
  intro c hc
  rw [to_csv_needs_quoting, List.any_eq_false] at h
  have h2 := h c hc
  rw [to_csv_special] at h2
  simp only [Bool.or_eq_true, beq_iff_eq, not_or] at h2
  exact ⟨h2.1.1.1, h2.1.1.2, h2.1.2, h2.2⟩

/-- The reader undoes the quote doubling of the writer, stopping at the
closing quote. -/
theorem read_quoted_escape (f : List Char) :
    ∀ rest : List Char, rest.head? ≠ some '"' →
      read_quoted (to_csv_escape f ++ '"' :: rest) = some (f, rest) := by
  induction f with
  | nil =>
    intro rest h
    cases rest with
    | nil => simp [to_csv_escape, read_quoted]
    | cons c2 cs2 =>
      have hc2 : ¬(c2 = '"') := fun he => h (by simp [he])
      simp [to_csv_escape, read_quoted, hc2]
  | cons c f ih =>
    intro rest h
    by_cases hc : c = '"'
    · subst hc
      simp [to_csv_escape, read_quoted, ih rest h]
    · have he : to_csv_escape (c :: f) = c :: to_csv_escape f := by
        rw [to_csv_escape.eq_def]
        simp [hc]
      rw [he, List.cons_append, read_quoted.eq_def]
      simp [hc, ih rest h]

/-- The reader of an unquoted field consumes exactly the field, stopping at
the delimiter or terminator that follows it. -/
theorem read_unquoted_clean (f : List Char)
    (hf : ∀ c ∈ f, ¬(c = ',' ∨ c = '\n')) :
    ∀ rest, (rest = [] ∨ rest.head? = some ',' ∨ rest.head? = some '\n') →
      read_unquoted (f ++ rest) = (f, rest) := by
  induction f with
  | nil =>
    intro rest hrest
    rcases hrest with rfl | h | h
    · rfl
    · cases rest with
      | nil => simp at h
      | cons c0 cs0 =>
        have : c0 = ',' := by simpa using h
        subst this
        simp [read_unquoted]
    · cases rest with
      | nil => simp at h
      | cons c0 cs0 =>
        have : c0 = '\n' := by simpa using h
        subst this
        simp [read_unquoted]
  | cons c f ih =>
    intro rest hrest
    have hc := hf c (by simp)
    have hrec := ih (fun c' hc' => hf c' (by simp [hc'])) rest hrest
    have h1 : ¬(c = ',') := fun he => hc (Or.inl he)
    have h2 : ¬(c = '\n') := fun he => hc (Or.inr he)
    simp only [List.cons_append, read_unquoted]
    have hcond : (c == ',' || c == '\n') = false := by simp [h1, h2]
    rw [hcond]
    simp [hrec]

/-- The field reader inverts the field writer, for any following context
that starts with a delimiter or terminator (or ends the input). -/
theorem read_field_to_csv_field (f : List Char) (rest : List Char)
    (hrest : rest = [] ∨ rest.head? = some ',' ∨ rest.head? = some '\n') :
    read_field (to_csv_field f ++ rest) = some (f, rest) := by
  by_cases hq : to_csv_needs_quoting f = true
  · have hrq : rest.head? ≠ some '"' := by
      rcases hrest with rfl | h | h
      · simp
      · rw [h]; simp
      · rw [h]; simp
    rw [to_csv_field, if_pos hq]
    simp only [List.cons_append, List.append_assoc, List.singleton_append]
    simp only [read_field, if_pos (by rfl : ('"' == '"') = true)]
    exact read_quoted_escape f rest hrq
  · have hq' : to_csv_needs_quoting f = false := by
      cases hx : to_csv_needs_quoting f
      · rfl
      · exact absurd hx hq
    have hns := not_special_of_no_quoting hq'
    rw [to_csv_field, if_neg hq]
    cases f with
    | nil =>
      rcases hrest with rfl | h | h
      · rfl
      · cases rest with
        | nil => simp at h
        | cons c0 cs0 =>
          have : c0 = ',' := by simpa using h
          subst this
          simp [read_field, read_unquoted]
      · cases rest with
        | nil => simp at h
        | cons c0 cs0 =>
          have : c0 = '\n' := by simpa using h
          subst this
          simp [read_field, read_unquoted]
    | cons c f2 =>
      have hcq : ¬(c = '"') := (hns c (by simp)).2.1
      have hru := read_unquoted_clean (c :: f2)
        (fun c' hc' => by
          have h3 := hns c' hc'
          intro hor
          rcases hor with h4 | h4
          · exact h3.1 h4
          · exact h3.2.2.1 h4) rest hrest
      simp only [List.cons_append, read_field, hcq, if_neg]
      rw [← List.cons_append, hru]
      simp [hcq]

/-- The record reader inverts the record writer, given fuel at least the
field count. -/
theorem read_record_to_csv_record (fields : List (List Char)) :
    ∀ (fuel : Nat) (rest : List Char), fields ≠ [] → fields.length ≤ fuel →
      read_record fuel (to_csv_record fields ++ '\n' :: rest) = some (fields, rest) := by
  induction fields with
  | nil => intro _ _ h _; exact absurd rfl h
  | cons f fs ih =>
    intro fuel rest _ hlen
    cases fuel with
    | zero => simp at hlen
    | succ k =>
      cases fs with
      | nil =>
        have hf := read_field_to_csv_field f ('\n' :: rest) (by simp)
        simp only [to_csv_record]
        rw [read_record, hf]
        simp
      | cons g gs =>
        have hf := read_field_to_csv_field f
          (',' :: (to_csv_record (g :: gs) ++ '\n' :: rest)) (by simp)
        have hrec := ih k rest (by simp) (by simpa using Nat.le_of_succ_le_succ hlen)
        simp only [to_csv_record, List.append_assoc, List.cons_append]
        rw [read_record]
        rw [hf]
        simp [hrec]

/-- The serialized form of a record has at least one character per field
beyond the first. -/
theorem to_csv_record_length (fields : List (List Char)) :
    fields.length ≤ (to_csv_record fields).length + 1 := by
  induction fields with
  | nil => simp
  | cons f fs ih =>
    cases fs with
    | nil => simp [to_csv_record]
    | cons g gs =>
      simp only [to_csv_record, List.length_append, List.length_cons] at ih ⊢
      omega

/-- Unfolding lemma for `read_rows` on a non-empty input. -/
theorem read_rows_succ (k : Nat) (l : List Char) (hne : l ≠ []) :
    read_rows (k + 1) l =
      match read_record (l.length + 1) l with
      | none => none
      | some (fs, rest) =>
        match read_rows k rest with
        | some rows => some (fs :: rows)
        | none => none := by
  cases l with
  | nil => exact absurd rfl hne
  | cons c cs => rfl

/-- The file writer emits one terminator-ended line per record. -/
theorem to_csv_file_cons (r : List (List Char)) (rs : List (List (List Char))) :
    to_csv_file (r :: rs) = to_csv_record r ++ '\n' :: to_csv_file rs := by
  simp [to_csv_file]

/-- The rows reader inverts the file writer, given fuel at least the row
count (every record is non-empty: `to_csv` always writes the three
columns). -/
theorem read_rows_to_csv_file (rows : List (List (List Char))) :
    ∀ fuel : Nat, rows.length ≤ fuel → (∀ r ∈ rows, r ≠ []) →
      read_rows fuel (to_csv_file rows) = some rows := by
  induction rows with
  | nil =>
    intro fuel _ _
    have : to_csv_file [] = [] := by simp [to_csv_file]
    rw [this]
    cases fuel <;> rfl
  | cons r rs ih =>
    intro fuel hlen hne
    cases fuel with
    | zero => simp at hlen
    | succ k =>
      rw [to_csv_file_cons]
      have hnonnil : to_csv_record r ++ '\n' :: to_csv_file rs ≠ [] := by simp
      rw [read_rows_succ k _ hnonnil]
      have hlenrec : r.length ≤ (to_csv_record r ++ '\n' :: to_csv_file rs).length + 1 := by
        have h1 := to_csv_record_length r
        simp only [List.length_append, List.length_cons]
        omega
      rw [read_record_to_csv_record r _ (to_csv_file rs) (hne r (by simp)) hlenrec]
      simp [ih k (by simpa using Nat.le_of_succ_le_succ hlen) (fun r' hr' => hne r' (by simp [hr']))]

/-- The serialized file has at least one character (the line terminator)
per record. -/
theorem to_csv_file_length (rows : List (List (List Char))) :
    rows.length ≤ (to_csv_file rows).length := by
  induction rows with
  | nil => simp [to_csv_file]
  | cons r rs ih =>
    rw [to_csv_file_cons]
    simp only [List.length_append, List.length_cons]
    omega

/-- Full round trip at the file level: reading back a written csv file
recovers every record exactly. -/
theorem read_write_round_trip (rows : List (List (List Char)))
    (h : ∀ r ∈ rows, r ≠ []) :
    read_csv_file (to_csv_file rows) = some rows := by
  have hlen : rows.length ≤ (to_csv_file rows).length + 1 := by
    have h2 := to_csv_file_length rows
    omega
  exact read_rows_to_csv_file rows _ hlen h

/-- Claim C8: writing a partition manifest with `_save`'s `to_csv`
arguments (`QUOTE_MINIMAL`, doubled quotes) and reading it back yields the
same `wav_filename`/`wav_filesize`/`transcript` field tuples for every
row — including transcripts containing embedded commas, double quotes and
newlines, which are quoted/escaped losslessly.  The hypothesis scopes the
statement to fields without a carriage return or a backslash, whose
handling depends on the platform newline translation and Python version
rather than on this code. -/
theorem manifest_round_trip (rows : List RawRow)
    (hscope : ∀ r ∈ rows, ∀ fld ∈ raw_row_fields r, ('\r' ∉ fld ∧ '\\' ∉ fld)) :
    read_csv_file (save_file_contents rows)
      = some (header_fields :: rows.map raw_row_fields) := by
  refine read_write_round_trip _ ?_
  intro r hr
  rcases List.mem_cons.mp hr with hr0 | hrs
  · subst hr0; simp [header_fields]
  · obtain ⟨r0, _, rfl⟩ := List.mem_map.mp hrs
    simp [raw_row_fields]

/-- Concrete round trip through the writer and reader: two rows whose
transcripts contain an embedded comma, embedded double quotes, an embedded
newline, and an empty transcript, all recovered exactly. -/
theorem manifest_round_trip_witness :
    read_csv_file (save_file_contents tricky_rows)
      = some (header_fields :: tricky_rows.map raw_row_fields) :=
  manifest_round_trip tricky_rows (by decide)

end GramVaani
